import Mathlib

/-!
Verification development for the Nora music-library reconciliation core.

This file shallow-embeds the parts of the code base that the verified
properties talk about:

* the `withFileHandle` / `withFileHandleSync` resource wrappers
  (src/main/utils/withFileHandle.ts);
* the duration-rounding helper `getSongDurationFromSong`
  (test/src/main/parseSong/parseSong-helpers.test.ts) and the duration
  normalization of the parse pipeline;
* the unlinked-set computations of the three relationship reconcilers
  (`manageArtistDataUpdates`, `manageGenreDataUpdates`, and the artist
  block of `updateSongId3Tags` in updateSongId3Tags.ts);
* the unlink / orphan-check / delete step executed against the relational
  store (`unlinkSongFrom*`, `get*SongIds`, `delete*` in
  src/main/db/queries/artists.ts and the genres query module, as invoked
  by `updateSongId3Tags`);
* the pending-metadata flush loop `savePendingMetadataUpdates`
  (updateSongId3Tags.ts);
* the admission queues and the retry supervisor of the ingestion
  pipeline, modelled from the specification where the pipeline source
  (parseSong.ts) is not part of the corpus.

Effectful collaborators (file system, tag library, database driver) are
abstracted into explicit oracles passed as function-valued parameters, so
every definition is executable and every concrete scenario can be
evaluated inside Lean.
-/

namespace Nora

/-! ## File-handle wrapper (src/main/utils/withFileHandle.ts) -/

/--
Shallow embedding of `withFileHandle` (withFileHandle.ts lines 13-35).
`openResult` models `File.createFromPath(filePath)` (which either throws
or returns a handle) and `callback` models the awaited user callback
(which either throws or returns a value).  The returned pair carries the
overall outcome (`Except`, mirroring return vs rethrown error) and the
number of times `file.dispose()` was invoked by the `finally` block.  An
error thrown by `dispose` itself is caught and logged by the source, so
it does not change the invocation count and is not modelled.
-/
def withFileHandle {φ α : Type} (openResult : Except String φ)
    (callback : φ → Except String α) : Except String α × Nat :=
  let body : Except String α × Option φ :=
    match openResult with
    | Except.error e => (Except.error e, none)
    | Except.ok f =>
      match callback f with
      | Except.ok r => (Except.ok r, some f)
      | Except.error e => (Except.error e, some f)
  match body.2 with
  | some _ => (body.1, 1)
  | none => (body.1, 0)

/--
Shallow embedding of `withFileHandleSync` (withFileHandle.ts lines
41-62).  The source duplicates the async wrapper with a synchronous
callback; the embedding is the same function shape with the callback
result not wrapped in a promise.
-/
def withFileHandleSync {φ α : Type} (openResult : Except String φ)
    (callback : φ → Except String α) : Except String α × Nat :=
  let body : Except String α × Option φ :=
    match openResult with
    | Except.error e => (Except.error e, none)
    | Except.ok f =>
      match callback f with
      | Except.ok r => (Except.ok r, some f)
      | Except.error e => (Except.error e, some f)
  match body.2 with
  | some _ => (body.1, 1)
  | none => (body.1, 0)

/-! ## Duration normalization -/

/--
Rounding half away from zero to an integer, the rounding mode the
specification ascribes to JavaScript `toFixed`.  On every value reachable
from a binary floating-point number the two agree, because an exact
half-way case would need a denominator divisible by an odd factor of a
power of ten, which no binary float has.
-/
def roundHalfAwayFromZero (x : ℚ) : ℤ :=
  if 0 ≤ x then ⌊x + 1/2⌋ else -⌊-x + 1/2⌋

/--
Exact-rational model of `Number.prototype.toFixed(2)` followed by
`parseFloat`, as used by the duration helper: scale by 100, round, scale
back.
-/
def jsToFixed2 (x : ℚ) : ℚ := (roundHalfAwayFromZero (x * 100) : ℚ) / 100

/--
Shallow embedding of `getSongDurationFromSong`
(parseSong-helpers.test.ts lines 19-25): a numeric duration is rendered
with `toFixed(2)` and parsed back, a missing or non-numeric duration
yields 0.  Missing and non-numeric inputs are both modelled as `none`.
-/
def getSongDurationFromSong (duration : Option ℚ) : ℚ :=
  match duration with
  | some d => jsToFixed2 d
  | none => 0

/--
Modelled from the spec: `normalizeDuration` — the parse pipeline source
(parseSong.ts) is not part of the corpus; per the specification the
pipeline divides the tag duration in milliseconds by 1000 and applies
the two-decimal rounding of `getSongDurationFromSong`, yielding 0 for a
missing or non-numeric input.
-/
def normalizeDuration (ms : Option ℚ) : ℚ :=
  match ms with
  | some m => getSongDurationFromSong (some (m / 1000))
  | none => 0

/-! ## Theorems for the file-handle wrapper and duration claims -/

/--
C9: whenever opening the file succeeds, `withFileHandle` and
`withFileHandleSync` invoke `file.dispose()` exactly once — both when the
callback returns normally and when it throws — and when the open itself
fails, dispose is not invoked at all.
-/
theorem C9_dispose_exactly_once {φ α : Type} (openResult : Except String φ)
    (callback : φ → Except String α) :
    ((withFileHandle openResult callback).2 =
        if openResult.isOk then 1 else 0)
    ∧ ((withFileHandleSync openResult callback).2 =
        if openResult.isOk then 1 else 0) := by
  constructor <;>
    · cases openResult with
      | error e => rfl
      | ok f =>
        cases h : callback f <;>
          simp [withFileHandle, withFileHandleSync, h, Except.isOk, Except.toBool]

/--
C7: the duration normalization maps a tag duration in milliseconds to
seconds as milliseconds/1000 rounded half away from zero to two decimal
places; in particular 245678 ms yields 245.68, and a missing or
non-numeric input yields 0.
-/
theorem C7_duration_normalization :
    (∀ m : ℚ, normalizeDuration (some m) =
        (roundHalfAwayFromZero (m / 1000 * 100) : ℚ) / 100)
    ∧ normalizeDuration (some 245678) = 245.68
    ∧ normalizeDuration none = 0 := by
  refine ⟨fun m => rfl, ?_, rfl⟩
  have h : ⌊((245678 : ℚ) / 1000 * 100 + 1/2)⌋ = (24568 : ℤ) := by
    rw [Int.floor_eq_iff]
    constructor <;> norm_num
  simp only [normalizeDuration, getSongDurationFromSong, jsToFixed2,
    roundHalfAwayFromZero]
  rw [if_pos (by norm_num), h]
  norm_num

/-! ## Relationship reconcilers: the unlinked-set computations -/

/--
A declared tag entry of a song update (an element of `newSongData.artists`
or `newSongData.genres` in updateSongId3Tags.ts): a free-text name,
optionally carrying the id of an entity already known to the library.
-/
structure SongTagEntity where
  entityId : Option String
  name : String
deriving DecidableEq, Repr

/--
A previous link of the song (an element of `prevSongData.artists` or
`prevSongData.genres`): a reference to a library entity, id always
present.
-/
structure LinkedEntity where
  entityId : String
  name : String
deriving DecidableEq, Repr

/--
Computes `artistsWithIds` of `manageArtistDataUpdates`
(updateSongId3Tags.ts lines 277-279): the declared artists whose
`artistId` is a string; a non-array `newSongData.artists` yields the
empty list.
-/
def artistsWithIds (newArtists : Option (List SongTagEntity)) : List SongTagEntity :=
  match newArtists with
  | some l => l.filter (fun a => a.entityId.isSome)
  | none => []

/--
Computes `genresWithIds` of `manageGenreDataUpdates`
(updateSongId3Tags.ts lines 394-396), same filter as for artists.
-/
def genresWithIds (newGenres : Option (List SongTagEntity)) : List SongTagEntity :=
  match newGenres with
  | some l => l.filter (fun a => a.entityId.isSome)
  | none => []

/--
Computes `unlinkedArtists` of `manageArtistDataUpdates`
(updateSongId3Tags.ts lines 281-288): when the previous artists are
present, either the whole previous list (when it is non-empty and no
declared artist carries an id) or the previous artists whose id no
declared-with-id artist matches.
-/
def manageArtistUnlinked (newArtists : Option (List SongTagEntity))
    (prevArtists : Option (List LinkedEntity)) : List LinkedEntity :=
  let withIds := artistsWithIds newArtists
  match prevArtists with
  | none => []
  | some prev =>
    if 0 < prev.length ∧ withIds.length = 0 then prev
    else prev.filter (fun a => !(withIds.any (fun b => b.entityId == some a.entityId)))

/--
Computes `unlinkedGenres` of `manageGenreDataUpdates`
(updateSongId3Tags.ts lines 398-401): the previous genres not matched by
a declared-with-id genre, but only when at least one declared genre
carries an id — otherwise the empty list.
-/
def manageGenreUnlinked (newGenres : Option (List SongTagEntity))
    (prevGenres : Option (List LinkedEntity)) : List LinkedEntity :=
  let withIds := genresWithIds newGenres
  if 0 < withIds.length then
    match prevGenres with
    | none => []
    | some prev =>
      prev.filter (fun a => !(withIds.any (fun b => b.entityId == some a.entityId)))
  else []

/--
A declared tag entry in the database path of `updateSongId3Tags`, where
entity ids are numeric (`Number(a.artistId)` in the source).
-/
structure DbTagEntity where
  entityId : Option Int
  name : String
deriving DecidableEq, Repr

/--
Computes `artistsWithIds` of the artist block of `updateSongId3Tags`
(updateSongId3Tags.ts line 905): the declared artists with a truthy id.
-/
def dbArtistsWithIds (tagsArtists : List DbTagEntity) : List DbTagEntity :=
  tagsArtists.filter (fun a => a.entityId.isSome)

/--
Computes `unlinkedArtistIds` of the artist block of `updateSongId3Tags`
(updateSongId3Tags.ts lines 929-931): the ids of currently linked
artists that no declared-with-id artist matches.
-/
def dbUnlinkedArtistIds (currentArtistIds : List Int)
    (tagsArtists : List DbTagEntity) : List Int :=
  currentArtistIds.filter
    (fun id => !((dbArtistsWithIds tagsArtists).any (fun a => a.entityId == some id)))

/--
The unlinked set exactly as the specification words it: the previous
links whose id is absent from the declared entries carrying ids.  Kept
separate from the source-derived definitions so the two can be compared.
-/
def specUnlinked (withIds : List SongTagEntity) (prev : List LinkedEntity) :
    List LinkedEntity :=
  prev.filter (fun a => !(withIds.any (fun b => b.entityId == some a.entityId)))

/--
The specification's unlinked set for the numeric-id database path:
currently linked ids absent from the declared entries carrying ids.
-/
def specUnlinkedIds (withIds : List DbTagEntity) (current : List Int) : List Int :=
  current.filter (fun id => !(withIds.any (fun a => a.entityId == some id)))

/--
C1 counterexample: for the genre reconciler the claim fails.  With one
previous genre link and a declared genre list containing no entry with an
id, `manageGenreDataUpdates` computes an empty unlinked set, while the
claimed characterisation (previous links whose id is absent from
`withIds`) demands that the previous link be unlinked.
-/
theorem C1_unlinked_counterexample :
    manageGenreUnlinked (some [⟨none, "Rock"⟩]) (some [⟨"g1", "Pop"⟩]) = []
    ∧ specUnlinked (genresWithIds (some [⟨none, "Rock"⟩])) [⟨"g1", "Pop"⟩]
        = [⟨"g1", "Pop"⟩] := by
  constructor <;> rfl

/--
C1 amended: the artist reconciler's unlinked set and the database artist
block's unlinked set equal exactly the previous links whose id is absent
from the declared entries carrying ids — in particular, with no declared
entry carrying an id every previous link is unlinked there — while the
genre reconciler computes that set only when at least one declared entry
carries an id and computes the empty set otherwise.
-/
theorem C1_unlinked_sets (newArtists newGenres : Option (List SongTagEntity))
    (prev : List LinkedEntity) (current : List Int)
    (tagsArtists : List DbTagEntity) :
    manageArtistUnlinked newArtists (some prev)
        = specUnlinked (artistsWithIds newArtists) prev
    ∧ manageGenreUnlinked newGenres (some prev)
        = (if 0 < (genresWithIds newGenres).length
            then specUnlinked (genresWithIds newGenres) prev
            else [])
    ∧ dbUnlinkedArtistIds current tagsArtists
        = specUnlinkedIds (dbArtistsWithIds tagsArtists) current := by
  refine ⟨?_, ?_, rfl⟩
  · show (if 0 < prev.length ∧ (artistsWithIds newArtists).length = 0
        then prev
        else prev.filter
          (fun a => !((artistsWithIds newArtists).any
            (fun b => b.entityId == some a.entityId))))
      = specUnlinked (artistsWithIds newArtists) prev
    by_cases h : 0 < prev.length ∧ (artistsWithIds newArtists).length = 0
    · rw [if_pos h]
      have hw : artistsWithIds newArtists = [] := List.length_eq_zero.mp h.2
      simp [specUnlinked, hw]
    · rw [if_neg h]
      rfl
  · by_cases h : 0 < (genresWithIds newGenres).length
    · rw [if_pos h]
      show (if 0 < (genresWithIds newGenres).length then _ else []) = _
      rw [if_pos h]
      rfl
    · rw [if_neg h]
      show (if 0 < (genresWithIds newGenres).length then _ else []) = ([] : List LinkedEntity)
      rw [if_neg h]

/-! ## Relational store: unlink, orphan check, delete

The drizzle query modules expose, per entity kind, the same three
operations on an entity table and its song join table; `updateSongId3Tags`
composes them into an unlink / check-membership / delete-if-orphan step.
The store is modelled as the list of entity rows plus the join rows
`(entityId, songId)`.
-/

/--
One entity kind's slice of the relational store: the entity rows
(identified by id) and the song join rows keyed by `(entityId, songId)`.
-/
structure EntityTable where
  entityRows : List Int
  joinRows : List (Int × Int)
deriving DecidableEq, Repr

/--
Generic form of `unlinkSongFromArtist` / `unlinkSongFromGenre` /
`unlinkSongFromAlbum`: delete the join rows matching both the entity id
and the song id.
-/
def unlinkSongFromEntity (entityId songId : Int) (t : EntityTable) : EntityTable :=
  { t with joinRows := t.joinRows.filter (fun r => !(r.1 == entityId && r.2 == songId)) }

/--
Generic form of `getArtistSongIds` / `getGenreSongIds` /
`getAlbumSongIds`: the song ids of the join rows of the given entity.
-/
def getEntitySongIds (entityId : Int) (t : EntityTable) : List Int :=
  (t.joinRows.filter (fun r => r.1 == entityId)).map Prod.snd

/--
Generic form of `deleteArtist` / `deleteGenre` / `deleteAlbum`: delete
the entity row; the store cascade also deletes any remaining join rows of
that entity.
-/
def deleteEntity (entityId : Int) (t : EntityTable) : EntityTable :=
  { entityRows := t.entityRows.filter (fun x => x != entityId),
    joinRows := t.joinRows.filter (fun r => r.1 != entityId) }

/--
The reconciliation step `updateSongId3Tags` runs for every unlinked
entity id: unlink the song, query the remaining memberships, and delete
the entity exactly when none remain.
-/
def unlinkAndMaybeDeleteEntity (entityId songId : Int) (t : EntityTable) : EntityTable :=
  let t1 := unlinkSongFromEntity entityId songId t
  if getEntitySongIds entityId t1 = [] then deleteEntity entityId t1 else t1

/--
Shallow embedding of `unlinkSongFromArtist`
(src/main/db/queries/artists.ts lines 71-79).
-/
def unlinkSongFromArtist (artistId songId : Int) (t : EntityTable) : EntityTable :=
  unlinkSongFromEntity artistId songId t

/--
Shallow embedding of `getArtistSongIds`
(src/main/db/queries/artists.ts lines 262-269).
-/
def getArtistSongIds (artistId : Int) (t : EntityTable) : List Int :=
  getEntitySongIds artistId t

/--
Shallow embedding of `deleteArtist`
(src/main/db/queries/artists.ts lines 286-288), with the documented
cascade on the join table.
-/
def deleteArtist (artistId : Int) (t : EntityTable) : EntityTable :=
  deleteEntity artistId t

/--
The artist branch of the unlink loop in `updateSongId3Tags`
(updateSongId3Tags.ts lines 933-946).
-/
def unlinkAndMaybeDeleteArtist (artistId songId : Int) (t : EntityTable) : EntityTable :=
  unlinkAndMaybeDeleteEntity artistId songId t

/--
Shallow embedding of `unlinkSongFromGenre` (genres query module, lines
390-398 of the database queries source).
-/
def unlinkSongFromGenre (genreId songId : Int) (t : EntityTable) : EntityTable :=
  unlinkSongFromEntity genreId songId t

/--
Shallow embedding of `getGenreSongIds` (genres query module): the song
ids of the genre's join rows.
-/
def getGenreSongIds (genreId : Int) (t : EntityTable) : List Int :=
  getEntitySongIds genreId t

/--
Shallow embedding of `deleteGenre` (genres query module), with the
documented cascade on the join table.
-/
def deleteGenre (genreId : Int) (t : EntityTable) : EntityTable :=
  deleteEntity genreId t

/--
The genre branch of the unlink loop in `updateSongId3Tags`
(updateSongId3Tags.ts lines 1047-1059).
-/
def unlinkAndMaybeDeleteGenre (genreId songId : Int) (t : EntityTable) : EntityTable :=
  unlinkAndMaybeDeleteEntity genreId songId t

/--
Modelled from the spec: the albums query module is not part of the
corpus; `unlinkSongFromAlbum`, `getAlbumSongIds` and `deleteAlbum` follow
the same drizzle pattern as the artist and genre modules, as documented
by the specification's relational-store contract and by their call sites
in `updateSongId3Tags` (lines 958-1008).
-/
def unlinkAndMaybeDeleteAlbum (albumId songId : Int) (t : EntityTable) : EntityTable :=
  unlinkAndMaybeDeleteEntity albumId songId t

/-- Helper: the join rows of an entity after an unlink, projected to song
ids, are the previous song ids with the unlinked song removed. -/
theorem songIds_after_unlink (a s : Int) (l : List (Int × Int)) :
    ((l.filter (fun r => !(r.1 == a && r.2 == s))).filter (fun r => r.1 == a)).map Prod.snd
      = ((l.filter (fun r => r.1 == a)).map Prod.snd).filter (fun x => x != s) := by
  rw [List.filter_filter, List.filter_map, List.filter_filter]
  refine congrArg (List.map Prod.snd) (List.filter_congr ?_)
  intro r hr
  cases hb1 : (r.1 == a) <;> cases hb2 : (r.2 == s) <;>
    simp [hb1, hb2, bne, Function.comp]

/-- Helper: the unlink / orphan-check / delete step deletes an entity
exactly when its membership is empty after the unlink, and otherwise
keeps it with its membership reduced by the unlinked song. -/
theorem unlinkStep_spec (a s : Int) (t : EntityTable) (ha : a ∈ t.entityRows) :
    (a ∉ (unlinkAndMaybeDeleteEntity a s t).entityRows
      ↔ getEntitySongIds a (unlinkSongFromEntity a s t) = [])
    ∧ (getEntitySongIds a (unlinkSongFromEntity a s t) ≠ [] →
        (unlinkAndMaybeDeleteEntity a s t).entityRows = t.entityRows
        ∧ getEntitySongIds a (unlinkAndMaybeDeleteEntity a s t)
            = (getEntitySongIds a t).filter (fun x => x != s)) := by
  by_cases h : getEntitySongIds a (unlinkSongFromEntity a s t) = []
  · refine ⟨⟨fun _ => h, fun _ => ?_⟩, fun hne => absurd h hne⟩
    simp [unlinkAndMaybeDeleteEntity, h, deleteEntity, List.mem_filter]
  · have hstep : unlinkAndMaybeDeleteEntity a s t = unlinkSongFromEntity a s t := by
      simp [unlinkAndMaybeDeleteEntity, h]
    constructor
    · rw [hstep]
      simp only [unlinkSongFromEntity]
      exact ⟨fun hn => absurd ha hn, fun he => absurd he h⟩
    · intro _
      rw [hstep]
      refine ⟨rfl, ?_⟩
      simp only [getEntitySongIds, unlinkSongFromEntity]
      exact songIds_after_unlink a s t.joinRows

/--
C2: for every artist, genre, and album, the reconciliation step of
`updateSongId3Tags` that unlinks a song deletes the entity if and only if
it then has zero remaining song memberships; an entity with at least one
remaining membership is never deleted and persists with its membership
reduced by exactly the unlinked song.
-/
theorem C2_orphan_delete_iff (a s : Int) (t : EntityTable) (ha : a ∈ t.entityRows) :
    ((a ∉ (unlinkAndMaybeDeleteArtist a s t).entityRows
        ↔ getArtistSongIds a (unlinkSongFromArtist a s t) = [])
      ∧ (getArtistSongIds a (unlinkSongFromArtist a s t) ≠ [] →
          (unlinkAndMaybeDeleteArtist a s t).entityRows = t.entityRows
          ∧ getArtistSongIds a (unlinkAndMaybeDeleteArtist a s t)
              = (getArtistSongIds a t).filter (fun x => x != s)))
    ∧ ((a ∉ (unlinkAndMaybeDeleteGenre a s t).entityRows
        ↔ getGenreSongIds a (unlinkSongFromGenre a s t) = [])
      ∧ (getGenreSongIds a (unlinkSongFromGenre a s t) ≠ [] →
          (unlinkAndMaybeDeleteGenre a s t).entityRows = t.entityRows
          ∧ getGenreSongIds a (unlinkAndMaybeDeleteGenre a s t)
              = (getGenreSongIds a t).filter (fun x => x != s)))
    ∧ ((a ∉ (unlinkAndMaybeDeleteAlbum a s t).entityRows
        ↔ getEntitySongIds a (unlinkSongFromEntity a s t) = [])
      ∧ (getEntitySongIds a (unlinkSongFromEntity a s t) ≠ [] →
          (unlinkAndMaybeDeleteAlbum a s t).entityRows = t.entityRows
          ∧ getEntitySongIds a (unlinkAndMaybeDeleteAlbum a s t)
              = (getEntitySongIds a t).filter (fun x => x != s))) :=
  ⟨unlinkStep_spec a s t ha, unlinkStep_spec a s t ha, unlinkStep_spec a s t ha⟩

/--
C2 witness: a concrete store with two artists, one of which loses its
only membership and is deleted while the other keeps a second song and
persists.
-/
theorem C2_orphan_delete_iff_witness :
    (1 : Int) ∈ (EntityTable.mk [1, 2] [(1, 10), (2, 10), (2, 11)]).entityRows
    ∧ ((1 : Int) ∉ (unlinkAndMaybeDeleteArtist 1 10
          (EntityTable.mk [1, 2] [(1, 10), (2, 10), (2, 11)])).entityRows
        ↔ getArtistSongIds 1 (unlinkSongFromArtist 1 10
          (EntityTable.mk [1, 2] [(1, 10), (2, 10), (2, 11)])) = []) := by
  refine ⟨by decide, ?_⟩
  exact (C2_orphan_delete_iff 1 10 (EntityTable.mk [1, 2] [(1, 10), (2, 10), (2, 11)])
    (by decide)).1.1

/-! ## Pending metadata flush (`savePendingMetadataUpdates`) -/

/--
The tag payload of a pending metadata update (`TagData` in
updateSongId3Tags.ts lines 69-79).  Artwork is reduced to its presence;
the other fields keep their optional shapes.
-/
structure TagData where
  title : Option String
  artists : Option (List String)
  album : Option String
  genres : Option (List String)
  composer : Option String
  trackNumber : Option Nat
  year : Option Nat
  hasArtwork : Bool
  lyrics : Option String
deriving DecidableEq, Repr

/--
A pending metadata update (`PendingMetadataUpdates` in
updateSongId3Tags.ts lines 81-86).
-/
structure PendingMetadataUpdates where
  songPath : String
  tags : TagData
  sendUpdatedData : Option Bool
  isKnownSource : Option Bool
deriving DecidableEq, Repr

/--
Effect oracles for one run of `savePendingMetadataUpdates`: whether the
first `try` block (open the file via `withFileHandle`, apply the sparse
tag update, save, and optionally write the LRC file) succeeds for a
path, and the result of `statSync` for a path (`none` models both a
thrown stat and a missing `mtime`).
-/
structure SaveEnv where
  writeOk : String → Bool
  statMtime : String → Option Int
deriving Inhabited

/--
Observable actions of a flush run: the renderer message
`PENDING_METADATA_UPDATES_SAVED`, a `dataUpdateEvent`, and the
`updateSongModifiedAtByPath` store write.  Each action records the
pending path whose loop iteration emitted it.
-/
inductive SaveEvent where
  | savedMessage (title : Option String) (origin : String)
  | dataUpdate (topic : String) (origin : String)
  | modifiedAtWrite (origin : String) (mtime : Int)
deriving DecidableEq, Repr

/--
Outcome of a `savePendingMetadataUpdates` run: the pending map after the
run (in iteration order), the paths for which a file write was
attempted, the emitted actions, and the `modifiedDate` value carried by
an early `return` (updateSongId3Tags.ts line 175), if one happened.
-/
structure SaveResult where
  remaining : List (String × PendingMetadataUpdates)
  attempted : List String
  events : List SaveEvent
  earlyReturn : Option Int
deriving DecidableEq, Repr

/--
The actions dispatched on a successful save of one pending entry
(updateSongId3Tags.ts lines 157-165).
-/
def successEvents (title : Option String) (p : String) : List SaveEvent :=
  [SaveEvent.savedMessage title p,
   SaveEvent.dataUpdate "songs/artworks" p,
   SaveEvent.dataUpdate "songs/updatedSong" p,
   SaveEvent.dataUpdate "artists" p,
   SaveEvent.dataUpdate "albums" p,
   SaveEvent.dataUpdate "genres" p]

/--
The `for (const [songPath, pendingMetadata] of entries)` loop of
`savePendingMetadataUpdates` (updateSongId3Tags.ts lines 105-186).  An
entry is processed when `forceSave` is set or it is not the currently
playing path.  The first `try` attempts the file write: on success the
saved message and the five update events are dispatched and the entry is
removed from the map, on failure the error is logged and the entry stays.
The second `try` reads the file stats: on a valid `mtime`, a currently
playing entry makes the whole function return the modified date
immediately (skipping every remaining entry), while any other entry gets
its stored modified-at refreshed followed by a `songs/updatedSong`
event.
-/
def processEntries (env : SaveEnv) (currentSongPath : String) (forceSave : Bool) :
    List (String × PendingMetadataUpdates) → SaveResult
  | [] => { remaining := [], attempted := [], events := [], earlyReturn := none }
  | (songPath, pend) :: rest =>
    let isCurrent := songPath == currentSongPath
    if forceSave || !isCurrent then
      let ok := env.writeOk songPath
      let evs1 := if ok then successEvents pend.tags.title songPath else []
      let keep : List (String × PendingMetadataUpdates) :=
        if ok then [] else [(songPath, pend)]
      match env.statMtime songPath with
      | some t =>
        if isCurrent then
          { remaining := keep ++ rest, attempted := [songPath],
            events := evs1, earlyReturn := some t }
        else
          let r := processEntries env currentSongPath forceSave rest
          { remaining := keep ++ r.remaining,
            attempted := songPath :: r.attempted,
            events := evs1 ++ [SaveEvent.modifiedAtWrite songPath t,
              SaveEvent.dataUpdate "songs/updatedSong" songPath] ++ r.events,
            earlyReturn := r.earlyReturn }
      | none =>
        let r := processEntries env currentSongPath forceSave rest
        { remaining := keep ++ r.remaining,
          attempted := songPath :: r.attempted,
          events := evs1 ++ r.events,
          earlyReturn := r.earlyReturn }
    else
      let r := processEntries env currentSongPath forceSave rest
      { remaining := (songPath, pend) :: r.remaining, attempted := r.attempted,
        events := r.events, earlyReturn := r.earlyReturn }

/--
Shallow embedding of `savePendingMetadataUpdates` (updateSongId3Tags.ts
lines 92-188): an empty pending map returns immediately, otherwise the
entries are iterated in map order.
-/
def savePendingMetadataUpdates (env : SaveEnv)
    (entries : List (String × PendingMetadataUpdates))
    (currentSongPath : String) (forceSave : Bool) : SaveResult :=
  if entries.isEmpty then
    { remaining := entries, attempted := [], events := [], earlyReturn := none }
  else processEntries env currentSongPath forceSave entries

/--
The flush-attempt trace determined by the stat oracle alone: which paths
get a file-write attempt, and where the loop stops.  Used to show the
trace does not depend on write failures.
-/
def attemptTrace (stat : String → Option Int) (currentSongPath : String)
    (forceSave : Bool) : List (String × PendingMetadataUpdates) → List String
  | [] => []
  | (songPath, _) :: rest =>
    let isCurrent := songPath == currentSongPath
    if forceSave || !isCurrent then
      match stat songPath with
      | some _ =>
        if isCurrent then [songPath]
        else songPath :: attemptTrace stat currentSongPath forceSave rest
      | none => songPath :: attemptTrace stat currentSongPath forceSave rest
    else attemptTrace stat currentSongPath forceSave rest

/-- Helper: the attempted-path list of the flush loop is a function of
the stat oracle, the current path, and the force flag only — the write
oracle never influences it. -/
theorem processEntries_attempted (env : SaveEnv) (cur : String) (force : Bool)
    (l : List (String × PendingMetadataUpdates)) :
    (processEntries env cur force l).attempted = attemptTrace env.statMtime cur force l := by
  induction l with
  | nil => rfl
  | cons hd tl ih =>
    obtain ⟨p, e⟩ := hd
    by_cases hc : (force || !(p == cur)) = true
    · cases hs : env.statMtime p with
      | some t =>
        by_cases hcur : (p == cur) = true
        · have hforce : force = true := by
            rw [hcur] at hc
            simpa using hc
          subst hforce
          simp [processEntries, attemptTrace, hs, hcur]
        · have hpc : (p == cur) = false := by simpa using hcur
          simp [processEntries, attemptTrace, hs, hpc, ih]
      | none =>
        by_cases hcur : (p == cur) = true
        · have hforce : force = true := by
            rw [hcur] at hc
            simpa using hc
          subst hforce
          simp [processEntries, attemptTrace, hs, hcur, ih]
        · have hpc : (p == cur) = false := by simpa using hcur
          simp [processEntries, attemptTrace, hs, hpc, ih]
    · have hforce : force = false := by
        cases hf : force with
        | false => rfl
        | true => rw [hf] at hc; simp at hc
      have hpc : (p == cur) = true := by
        cases hq : (p == cur) with
        | true => rfl
        | false => rw [hforce, hq] at hc; simp at hc
      subst hforce
      simp [processEntries, attemptTrace, hpc, ih]

/-- The pending path recorded on an emitted action. -/
def originOf : SaveEvent → String
  | SaveEvent.savedMessage _ o => o
  | SaveEvent.dataUpdate _ o => o
  | SaveEvent.modifiedAtWrite o _ => o

/-- Helper: every action in the success batch of a path records that
path as its origin. -/
theorem origin_mem_successEvents {title : Option String} {p : String} {ev : SaveEvent}
    (h : ev ∈ successEvents title p) : originOf ev = p := by
  simp only [successEvents, List.mem_cons, List.not_mem_nil, or_false] at h
  rcases h with h | h | h | h | h | h <;> (subst h; rfl)

/-- Helper: every event emitted by the flush loop records a pending path
of the processed list as its origin. -/
theorem processEntries_event_origin (env : SaveEnv) (cur : String) (force : Bool)
    (l : List (String × PendingMetadataUpdates)) :
    ∀ ev ∈ (processEntries env cur force l).events,
      originOf ev ∈ l.map Prod.fst := by
  induction l with
  | nil => intro ev h; simp [processEntries] at h
  | cons hd tl ih =>
    obtain ⟨p, e⟩ := hd
    intro ev hev
    simp only [List.map_cons, List.mem_cons]
    by_cases hc : (force || !(p == cur)) = true
    · by_cases hok : env.writeOk p = true
      all_goals cases hs : env.statMtime p with
      | some t =>
        by_cases hcur : (p == cur) = true
        · have hforce : force = true := by
            rw [hcur] at hc
            simpa using hc
          subst hforce
          simp only [processEntries, hs, hcur, hok, Bool.true_or,
            if_true, Bool.false_eq_true, if_false] at hev
          first
          | exact Or.inl (origin_mem_successEvents hev)
          | simp at hev
        · have hpc : (p == cur) = false := by simpa using hcur
          simp only [processEntries, hs, hpc, hok, Bool.not_false, Bool.or_true,
            if_true, Bool.false_eq_true, if_false, List.nil_append,
            List.append_assoc, List.mem_append, List.mem_cons,
            List.not_mem_nil, or_false, false_or] at hev
          first
          | (rcases hev with h | (h | h) | h
             · exact Or.inl (origin_mem_successEvents h)
             · subst h; exact Or.inl rfl
             · subst h; exact Or.inl rfl
             · exact Or.inr (ih ev h))
          | (rcases hev with (h | h) | h
             · subst h; exact Or.inl rfl
             · subst h; exact Or.inl rfl
             · exact Or.inr (ih ev h))
      | none =>
        by_cases hcur : (p == cur) = true
        all_goals first
        | (have hpc : (p == cur) = false := by simpa using hcur
           simp only [processEntries, hs, hpc, hok, Bool.not_false, Bool.or_true,
             if_true, Bool.false_eq_true, if_false, List.nil_append,
             List.mem_append] at hev
           first
           | (rcases hev with h | h
              · exact Or.inl (origin_mem_successEvents h)
              · exact Or.inr (ih ev h))
           | exact Or.inr (ih ev hev))
        | (have hforce : force = true := by
             rw [hcur] at hc
             simpa using hc
           subst hforce
           simp only [processEntries, hs, hcur, hok, Bool.true_or,
             if_true, Bool.false_eq_true, if_false, List.nil_append,
             List.mem_append] at hev
           first
           | (rcases hev with h | h
              · exact Or.inl (origin_mem_successEvents h)
              · exact Or.inr (ih ev h))
           | exact Or.inr (ih ev hev))
    · have hforce : force = false := by
        cases hf : force with
        | false => rfl
        | true => rw [hf] at hc; simp at hc
      have hpc : (p == cur) = true := by
        cases hq : (p == cur) with
        | true => rfl
        | false => rw [hforce, hq] at hc; simp at hc
      subst hforce
      simp only [processEntries, hpc, Bool.not_true, Bool.or_false,
        Bool.false_eq_true, if_false] at hev
      exact Or.inr (ih ev hev)

/-- Helper: when no pending entry is for the currently playing path, the
flush loop attempts every entry, in order. -/
theorem attemptTrace_all (stat : String → Option Int) (cur : String) (force : Bool) :
    ∀ l : List (String × PendingMetadataUpdates),
      (∀ q ∈ l.map Prod.fst, q ≠ cur) →
      attemptTrace stat cur force l = l.map Prod.fst := by
  intro l
  induction l with
  | nil => intro _; rfl
  | cons hd tl ih =>
    obtain ⟨p, e⟩ := hd
    intro h
    have hp : p ≠ cur := h p (by simp)
    have hpc : (p == cur) = false := by simpa using hp
    have htl : ∀ q ∈ tl.map Prod.fst, q ≠ cur := fun q hq => h q (by simp [hq])
    cases hs : stat p with
    | some t => simp [attemptTrace, hpc, hs, ih htl]
    | none => simp [attemptTrace, hpc, hs, ih htl]

/-- Helper: with the force flag set, the flush loop attempts the entries
before the currently playing one, attempts the currently playing one, and
then returns its modified date, never reaching the remaining entries. -/
theorem processEntries_early_stop (env : SaveEnv) (cur : String)
    (e : PendingMetadataUpdates) (post : List (String × PendingMetadataUpdates))
    (t : Int) (ht : env.statMtime cur = some t) :
    ∀ pre : List (String × PendingMetadataUpdates),
      (∀ q ∈ pre.map Prod.fst, q ≠ cur) →
      (processEntries env cur true (pre ++ (cur, e) :: post)).attempted
          = pre.map Prod.fst ++ [cur]
      ∧ (processEntries env cur true (pre ++ (cur, e) :: post)).earlyReturn = some t := by
  intro pre
  induction pre with
  | nil =>
    intro _
    have hcc : (cur == cur) = true := by simp
    constructor <;> simp [processEntries, hcc, ht]
  | cons hd tl ih =>
    obtain ⟨p, ep⟩ := hd
    intro h
    have hp : p ≠ cur := h p (by simp)
    have hpc : (p == cur) = false := by simpa using hp
    have htl : ∀ q ∈ tl.map Prod.fst, q ≠ cur := fun q hq => h q (by simp [hq])
    have := ih htl
    cases hs : env.statMtime p with
    | some u => constructor <;> simp [processEntries, hpc, hs, this.1, this.2]
    | none => constructor <;> simp [processEntries, hpc, hs, this.1, this.2]

/--
C8 counterexample: with the force flag set, the pending map holding the
currently playing path first and a second path after it, and every write
and stat succeeding, `savePendingMetadataUpdates` attempts only the
currently playing entry and returns before flushing the second pending
entry — the claim requires an attempt for every entry.
-/
theorem C8_flush_stops_after_current_counterexample :
    (savePendingMetadataUpdates
        (SaveEnv.mk (fun _ => true) (fun _ => some 5))
        [("p1", PendingMetadataUpdates.mk "p1"
            (TagData.mk none none none none none none none false none) none none),
         ("p2", PendingMetadataUpdates.mk "p2"
            (TagData.mk none none none none none none none false none) none none)]
        "p1" true).attempted = ["p1"]
    ∧ "p2" ∈ List.map Prod.fst
        [("p1", PendingMetadataUpdates.mk "p1"
            (TagData.mk none none none none none none none false none) none none),
         ("p2", PendingMetadataUpdates.mk "p2"
            (TagData.mk none none none none none none none false none) none none)]
    ∧ "p2" ∉ (savePendingMetadataUpdates
        (SaveEnv.mk (fun _ => true) (fun _ => some 5))
        [("p1", PendingMetadataUpdates.mk "p1"
            (TagData.mk none none none none none none none false none) none none),
         ("p2", PendingMetadataUpdates.mk "p2"
            (TagData.mk none none none none none none none false none) none none)]
        "p1" true).attempted := by
  decide

/--
C8 amended: with the force flag set, `savePendingMetadataUpdates`
attempts a flush for every pending entry when no entry is for the
currently playing path; which entries are attempted never depends on
write failures (a failed write does not prevent the remaining entries
from being flushed); but when a pending entry for the currently playing
path is reached and its post-write stat succeeds, the run returns that
entry's modified date immediately and the entries after it are not
attempted.
-/
theorem C8_force_flush (env : SaveEnv)
    (entries : List (String × PendingMetadataUpdates)) (cur : String) :
    ((∀ q ∈ entries.map Prod.fst, q ≠ cur) →
      (savePendingMetadataUpdates env entries cur true).attempted
        = entries.map Prod.fst)
    ∧ (∀ env2 : SaveEnv, env2.statMtime = env.statMtime → ∀ force : Bool,
        (savePendingMetadataUpdates env2 entries cur force).attempted
          = (savePendingMetadataUpdates env entries cur force).attempted)
    ∧ (∀ pre e post t, entries = pre ++ (cur, e) :: post →
        (∀ q ∈ pre.map Prod.fst, q ≠ cur) → env.statMtime cur = some t →
        (savePendingMetadataUpdates env entries cur true).attempted
            = pre.map Prod.fst ++ [cur]
        ∧ (savePendingMetadataUpdates env entries cur true).earlyReturn = some t) := by
  refine ⟨?_, ?_, ?_⟩
  · intro h
    cases entries with
    | nil => rfl
    | cons hd tl =>
      show (processEntries env cur true (hd :: tl)).attempted = _
      rw [processEntries_attempted]
      exact attemptTrace_all env.statMtime cur true (hd :: tl) h
  · intro env2 hstat force
    cases entries with
    | nil => rfl
    | cons hd tl =>
      show (processEntries env2 cur force (hd :: tl)).attempted
        = (processEntries env cur force (hd :: tl)).attempted
      rw [processEntries_attempted, processEntries_attempted, hstat]
  · intro pre e post t hsplit hpre ht
    subst hsplit
    have hne : (pre ++ (cur, e) :: post).isEmpty = false := by
      cases pre <;> rfl
    have hstep := processEntries_early_stop env cur e post t ht pre hpre
    constructor
    · show (savePendingMetadataUpdates env (pre ++ (cur, e) :: post) cur true).attempted = _
      rw [savePendingMetadataUpdates, if_neg (by simp [hne])]
      exact hstep.1
    · show (savePendingMetadataUpdates env (pre ++ (cur, e) :: post) cur true).earlyReturn = _
      rw [savePendingMetadataUpdates, if_neg (by simp [hne])]
      exact hstep.2

/--
C8 witness: a concrete two-entry pending map with no currently playing
entry is flushed entry by entry.
-/
theorem C8_force_flush_witness :
    (savePendingMetadataUpdates (SaveEnv.mk (fun _ => false) (fun _ => none))
        [("a", PendingMetadataUpdates.mk "a"
            (TagData.mk none none none none none none none false none) none none),
         ("b", PendingMetadataUpdates.mk "b"
            (TagData.mk none none none none none none none false none) none none)]
        "zz" true).attempted
      = List.map Prod.fst
        [("a", PendingMetadataUpdates.mk "a"
            (TagData.mk none none none none none none none false none) none none),
         ("b", PendingMetadataUpdates.mk "b"
            (TagData.mk none none none none none none none false none) none none)] :=
  (C8_force_flush (SaveEnv.mk (fun _ => false) (fun _ => none)) _ "zz").1 (by decide)

/--
C10 counterexample: when the in-file tag write throws for a path, the
entry does remain pending and no saved message is sent, but a
`songs/updatedSong` data-update event for that path is still emitted by
the following stat step — the claim says no data-update event is emitted
for the path.
-/
theorem C10_update_event_after_failed_write_counterexample :
    (SaveEnv.mk (fun _ => false) (fun _ => some 7)).writeOk "p1" = false
    ∧ SaveEvent.dataUpdate "songs/updatedSong" "p1" ∈
        (savePendingMetadataUpdates (SaveEnv.mk (fun _ => false) (fun _ => some 7))
          [("p1", PendingMetadataUpdates.mk "p1"
              (TagData.mk none none none none none none none false none) none none)]
          "" false).events
    ∧ ("p1", PendingMetadataUpdates.mk "p1"
          (TagData.mk none none none none none none none false none) none none) ∈
        (savePendingMetadataUpdates (SaveEnv.mk (fun _ => false) (fun _ => some 7))
          [("p1", PendingMetadataUpdates.mk "p1"
              (TagData.mk none none none none none none none false none) none none)]
          "" false).remaining := by
  refine ⟨rfl, ?_, ?_⟩ <;> simp [savePendingMetadataUpdates, processEntries]

/--
C10 amended: if the in-file tag write throws for a non-currently-playing
path during the flush loop, the path's entry remains in the pending map
(the entry is deleted only after a successful save) and neither the
`PENDING_METADATA_UPDATES_SAVED` message nor the success-batch update
events are emitted for it; the subsequent stat step still runs, however,
and when the stat succeeds it refreshes the stored modified-at and emits
one `songs/updatedSong` data-update event for that path.
-/
theorem C10_failed_write_keeps_entry (env : SaveEnv) (cur : String) (force : Bool)
    (p : String) (e : PendingMetadataUpdates)
    (rest : List (String × PendingMetadataUpdates))
    (hw : env.writeOk p = false) (hc : p ≠ cur) (hr : p ∉ rest.map Prod.fst) :
    (p, e) ∈ (processEntries env cur force ((p, e) :: rest)).remaining
    ∧ (∀ t, SaveEvent.savedMessage t p ∉
        (processEntries env cur force ((p, e) :: rest)).events)
    ∧ (∀ topic, SaveEvent.dataUpdate topic p ∈
          (processEntries env cur force ((p, e) :: rest)).events ↔
        (topic = "songs/updatedSong" ∧ (env.statMtime p).isSome = true)) := by
  have hpc : (p == cur) = false := by simpa using hc
  have horigin := processEntries_event_origin env cur force rest
  cases hs : env.statMtime p with
  | some t =>
    have hev : (processEntries env cur force ((p, e) :: rest)).events
        = SaveEvent.modifiedAtWrite p t :: SaveEvent.dataUpdate "songs/updatedSong" p ::
          (processEntries env cur force rest).events := by
      simp [processEntries, hpc, hs, hw]
    refine ⟨?_, ?_, ?_⟩
    · simp [processEntries, hpc, hs, hw]
    · intro ti hmem
      rw [hev] at hmem
      rcases List.mem_cons.mp hmem with h | hmem2
      · exact SaveEvent.noConfusion h
      rcases List.mem_cons.mp hmem2 with h | h
      · exact SaveEvent.noConfusion h
      · have := horigin _ h
        simp only [originOf] at this
        exact hr this
    · intro topic
      rw [hev]
      constructor
      · intro hmem
        rcases List.mem_cons.mp hmem with h | hmem2
        · exact SaveEvent.noConfusion h
        rcases List.mem_cons.mp hmem2 with h | h
        · injection h with h1 h2
          exact ⟨h1, rfl⟩
        · have := horigin _ h
          simp only [originOf] at this
          exact absurd this hr
      · rintro ⟨htopic, _⟩
        subst htopic
        exact List.mem_cons_of_mem _ (List.mem_cons_self _ _)
  | none =>
    have hev : (processEntries env cur force ((p, e) :: rest)).events
        = (processEntries env cur force rest).events := by
      simp [processEntries, hpc, hs, hw]
    refine ⟨?_, ?_, ?_⟩
    · simp [processEntries, hpc, hs, hw]
    · intro ti hmem
      rw [hev] at hmem
      have := horigin _ hmem
      simp only [originOf] at this
      exact hr this
    · intro topic
      rw [hev]
      constructor
      · intro hmem
        have := horigin _ hmem
        simp only [originOf] at this
        exact absurd this hr
      · rintro ⟨_, habs⟩
        simp at habs

/--
C10 witness: a concrete failing write on a single-entry pending map with
a successful stat keeps the entry pending, sends no saved message, and
emits exactly the stat-step update event.
-/
theorem C10_failed_write_keeps_entry_witness :
    ("q", PendingMetadataUpdates.mk "q"
        (TagData.mk none none none none none none none false none) none none) ∈
      (processEntries (SaveEnv.mk (fun _ => false) (fun _ => some 3)) "cur" false
        [("q", PendingMetadataUpdates.mk "q"
            (TagData.mk none none none none none none none false none) none none)]).remaining
    ∧ SaveEvent.savedMessage (some "x") "q" ∉
      (processEntries (SaveEnv.mk (fun _ => false) (fun _ => some 3)) "cur" false
        [("q", PendingMetadataUpdates.mk "q"
            (TagData.mk none none none none none none none false none) none none)]).events :=
  ⟨(C10_failed_write_keeps_entry (SaveEnv.mk (fun _ => false) (fun _ => some 3)) "cur"
      false "q" (PendingMetadataUpdates.mk "q"
        (TagData.mk none none none none none none none false none) none none) []
      rfl (by decide) (by decide)).1,
   (C10_failed_write_keeps_entry (SaveEnv.mk (fun _ => false) (fun _ => some 3)) "cur"
      false "q" (PendingMetadataUpdates.mk "q"
        (TagData.mk none none none none none none none false none) none none) []
      rfl (by decide) (by decide)).2.1 (some "x")⟩

/-! ## Ingestion pipeline: admission queues, parse pipeline, retry supervisor

The pipeline source (parseSong.ts) is not part of the corpus — only its
test files are — so the definitions below are modelled from the
specification (sections 4.2-4.4) and cross-checked against the behaviour
the tests in test/src/main/parseSong pin down.
-/

/--
Modelled from the spec: `tryEnter(queue, path)` of the admission queues
(spec section 4.2) — atomically check membership; if present return
false, otherwise insert and return true.  Returns the flag and the
updated queue.
-/
def tryEnter (queue : List String) (path : String) : Bool × List String :=
  if path ∈ queue then (false, queue) else (true, path :: queue)

/--
Modelled from the spec: `leave(queue, path)` of the admission queues
(spec section 4.2) — unconditional removal, invoked in a
guaranteed-cleanup block.
-/
def leave (queue : List String) (path : String) : List String :=
  queue.filter (fun x => x != path)

/-- The two process-wide admission queues: the outer `pathsQueue` of the
retry supervisor and the inner `parseQueue` of the parse pipeline. -/
structure ParseState where
  pathsQueue : List String
  parseQueue : List String
deriving DecidableEq, Repr

/--
Effect oracles for one `parseSong` run: whether a song row for the path
already exists, whether the tag metadata is readable, and whether the
rest of the pipeline (normalization, artwork storage, the persistence
transaction) completes without throwing.
-/
structure ParseEnv where
  songExists : String → Bool
  metadataOk : String → Bool
  pipelineOk : String → Bool

/-- How a `parseSong` run ended: persisted a row, skipped as ineligible
(with the logged reason), or threw to the caller. -/
inductive ParseOutcome where
  | success
  | skipped (reason : String)
  | errored
deriving DecidableEq, Repr

/-- Result of a `parseSong` run: final queues, outcome, number of
persisted song rows, and the log lines emitted. -/
structure ParseResult where
  state : ParseState
  outcome : ParseOutcome
  saves : Nat
  logs : List String
deriving DecidableEq, Repr

/--
Modelled from the spec: `parseSong` (spec section 4.3).  Admission on
`parseQueue` (a present path is dropped with a logged ineligible reason
and no side effects); then the existing-song check (unless
`reparseToSync`), the metadata check, and the pipeline body, which
persists exactly one song row on success and rethrows on error; the
queue entry is removed in a guaranteed-cleanup step on every path out.
-/
def parseSong (env : ParseEnv) (path : String) (reparseToSync : Bool)
    (st : ParseState) : ParseResult :=
  if path ∈ st.parseQueue then
    { state := st, outcome := ParseOutcome.skipped "isSongInParseQueue", saves := 0,
      logs := ["notEligible:isSongInParseQueue"] }
  else
    let entered : ParseState := { st with parseQueue := path :: st.parseQueue }
    let exit : ParseState := { entered with parseQueue := leave entered.parseQueue path }
    if !reparseToSync && env.songExists path then
      { state := exit, outcome := ParseOutcome.skipped "songAlreadyExists", saves := 0,
        logs := ["notEligible:songAlreadyExists"] }
    else if !(env.metadataOk path) then
      { state := exit, outcome := ParseOutcome.skipped "metadataUnreadable", saves := 0,
        logs := ["notEligible:metadataUnreadable"] }
    else if env.pipelineOk path then
      { state := exit, outcome := ParseOutcome.success, saves := 1, logs := [] }
    else
      { state := exit, outcome := ParseOutcome.errored, saves := 0,
        logs := ["errorLogged"] }

/--
Modelled from the spec: the attempt loop of the retry supervisor (spec
section 4.4).  `ok n` says whether the n-th `parseSong` attempt resolves;
`fuel` is the remaining attempt budget (5 at the start).  Returns the
number of attempts performed and whether the last one succeeded; a
failed attempt retries while budget remains, mirroring the
attempt-count-below-5 check of the source.
-/
def retryAttempts (ok : Nat → Bool) : Nat → Nat → Nat × Bool
  | _, 0 => (0, false)
  | n, fuel + 1 =>
    if ok n then (1, true)
    else if fuel = 0 then (1, false)
    else
      let r := retryAttempts ok (n + 1) fuel
      (r.1 + 1, r.2)

/-- The base name of a path: the component after the last separator, as
`path.basename` produces for the terminal failure message. -/
def baseName (p : String) : String := (p.splitOn "/").getLastD p

/-- Effect oracle for the retry supervisor: whether the n-th `parseSong`
attempt for the path resolves (a resolved attempt persists its row). -/
structure TryEnv where
  attemptOk : Nat → Bool

/--
Result of a `tryToParseSong` call.  `admitted = false` models the
synchronous `undefined` return of a call dropped by the `pathsQueue`
check — no promise, no attempts, no persistence.
-/
structure TryOutcome where
  admitted : Bool
  state : ParseState
  attempts : Nat
  saves : Nat
  logs : List String
  messages : List String
deriving DecidableEq, Repr

/--
Modelled from the spec: `tryToParseSong` (spec section 4.4).  Admission
on `pathsQueue`: a present path logs the ineligible reason and returns
undefined synchronously.  Otherwise up to five `parseSong` attempts run
5 seconds apart; success sends `PARSE_SUCCESSFUL` (unless suppressed)
and exhaustion sends a terminal `PARSE_FAILED` message identifying the
file by its base name; the queue entry is removed on both exits.
-/
def tryToParseSong (env : TryEnv) (path : String) (suppressMessages : Bool)
    (st : ParseState) : TryOutcome :=
  if path ∈ st.pathsQueue then
    { admitted := false, state := st, attempts := 0, saves := 0,
      logs := ["notEligible:isSongInPathsQueue"], messages := [] }
  else
    let q := path :: st.pathsQueue
    let r := retryAttempts env.attemptOk 1 5
    if r.2 then
      { admitted := true, state := { st with pathsQueue := leave q path },
        attempts := r.1, saves := 1, logs := [],
        messages := if suppressMessages then [] else ["PARSE_SUCCESSFUL"] }
    else
      { admitted := true, state := { st with pathsQueue := leave q path },
        attempts := r.1, saves := 0, logs := ["retriesExhausted"],
        messages := ["PARSE_FAILED:" ++ baseName path] }

/-- Helper: when every attempt fails, the attempt loop uses its whole
budget and reports failure. -/
theorem retryAttempts_all_fail (ok : Nat → Bool) (hok : ∀ n, ok n = false) :
    ∀ fuel n, 0 < fuel → retryAttempts ok n fuel = (fuel, false) := by
  intro fuel
  induction fuel with
  | zero => intro n h; omega
  | succ f ihf =>
    intro n _
    by_cases hf : f = 0
    · subst hf
      simp [retryAttempts, hok n]
    · have hr := ihf (n + 1) (Nat.pos_of_ne_zero hf)
      simp [retryAttempts, hok n, hf, hr]

/-- Helper: when the first success is the attempt at offset `j` within
the budget, the loop performs exactly `j + 1` attempts and reports
success. -/
theorem retryAttempts_first_success (ok : Nat → Bool) :
    ∀ fuel n j, j < fuel → (∀ i, i < j → ok (n + i) = false) →
      ok (n + j) = true → retryAttempts ok n fuel = (j + 1, true) := by
  intro fuel
  induction fuel with
  | zero => intro n j hj; omega
  | succ f ihf =>
    intro n j hj hfail hsucc
    cases j with
    | zero =>
      have h0 : ok n = true := by simpa using hsucc
      simp [retryAttempts, h0]
    | succ j2 =>
      have h0 : ok n = false := by simpa using hfail 0 (Nat.succ_pos _)
      have hf : f ≠ 0 := by omega
      have hrec := ihf (n + 1) j2 (by omega)
        (fun i hi => by
          have h2 := hfail (i + 1) (by omega)
          have he : n + (i + 1) = n + 1 + i := by omega
          rwa [he] at h2)
        (by
          have he : n + (j2 + 1) = n + 1 + j2 := by omega
          rwa [he] at hsucc)
      simp [retryAttempts, h0, hf, hrec]

/-- Helper: removing a freshly inserted path from a queue restores the
queue it was inserted into. -/
theorem leave_cons (q : List String) (p : String) (h : p ∉ q) :
    leave (p :: q) p = q := by
  have hself : (p != p) = false := by simp
  simp only [leave, List.filter_cons, hself, Bool.false_eq_true, if_false]
  rw [List.filter_eq_self.mpr]
  intro x hx
  simp only [bne_iff_ne, ne_eq]
  intro he
  exact h (he ▸ hx)

/--
C3: when every pipeline attempt for a path fails, `tryToParseSong`
performs exactly 5 attempts and ends with the terminal `PARSE_FAILED`
message identifying the file by its base name; when some attempt at or
before the 5th succeeds (all earlier ones failing), the remaining
retries are short-circuited — exactly that many attempts run — and no
`PARSE_FAILED` message is sent.
-/
theorem C3_retry_bound (env : TryEnv) (path : String) (st : ParseState)
    (hq : path ∉ st.pathsQueue) :
    ((∀ n, env.attemptOk n = false) →
      (tryToParseSong env path false st).attempts = 5
      ∧ (tryToParseSong env path false st).messages
          = ["PARSE_FAILED:" ++ baseName path])
    ∧ (∀ k, 1 ≤ k → k ≤ 5 →
        (∀ n, n < k → env.attemptOk n = false) → env.attemptOk k = true →
        (tryToParseSong env path false st).attempts = k
        ∧ (tryToParseSong env path false st).messages = ["PARSE_SUCCESSFUL"]) := by
  constructor
  · intro hfail
    have hr := retryAttempts_all_fail env.attemptOk hfail 5 1 (by omega)
    constructor <;> simp [tryToParseSong, hq, hr]
  · intro k h1 h5 hfail hsucc
    have hr := retryAttempts_first_success env.attemptOk 5 1 (k - 1) (by omega)
      (fun i hi => hfail (1 + i) (by omega))
      (by
        have he : 1 + (k - 1) = k := by omega
        rw [he]
        exact hsucc)
    have he2 : k - 1 + 1 = k := by omega
    rw [he2] at hr
    constructor <;> simp [tryToParseSong, hq, hr]

/--
C3 witness: with every attempt failing on a fresh path, the supervisor
performs 5 attempts and sends the terminal message carrying the base
name of the file.
-/
theorem C3_retry_bound_witness :
    (tryToParseSong (TryEnv.mk fun _ => false) "/music/track.mp3" false
        (ParseState.mk [] [])).attempts = 5
    ∧ (tryToParseSong (TryEnv.mk fun _ => false) "/music/track.mp3" false
        (ParseState.mk [] [])).messages
        = ["PARSE_FAILED:" ++ baseName "/music/track.mp3"] :=
  (C3_retry_bound (TryEnv.mk fun _ => false) "/music/track.mp3"
    (ParseState.mk [] []) (by simp)).1 (fun n => rfl)

/--
C4: a `tryToParseSong` call for a path already in `pathsQueue` returns
undefined synchronously (no admitted work, zero attempts), logs exactly
one ineligible event with reason `isSongInPathsQueue`, and performs zero
persistence calls, leaving the state untouched.
-/
theorem C4_inflight_duplicate_dropped (env : TryEnv) (path : String) (st : ParseState)
    (h : path ∈ st.pathsQueue) :
    tryToParseSong env path false st
      = { admitted := false, state := st, attempts := 0, saves := 0,
          logs := ["notEligible:isSongInPathsQueue"], messages := [] } := by
  simp [tryToParseSong, h]

/-- C4 witness: a concrete path already in flight is dropped with the
ineligible log and no persistence. -/
theorem C4_inflight_duplicate_dropped_witness :
    tryToParseSong (TryEnv.mk fun _ => true) "/a.mp3" false
        (ParseState.mk ["/a.mp3"] [])
      = { admitted := false, state := ParseState.mk ["/a.mp3"] [], attempts := 0,
          saves := 0, logs := ["notEligible:isSongInPathsQueue"], messages := [] } :=
  C4_inflight_duplicate_dropped (TryEnv.mk fun _ => true) "/a.mp3"
    (ParseState.mk ["/a.mp3"] []) (by simp)

/--
C5: two concurrent `parseSong` calls on the same new path — the second
starting while the first holds the `parseQueue` entry — persist exactly
one song row in total; the second call is skipped without error after
logging exactly one ineligible event with reason `isSongInParseQueue`.
-/
theorem C5_concurrent_parse_single_save (env : ParseEnv) (path : String)
    (st : ParseState) (hq : path ∉ st.parseQueue)
    (hnew : env.songExists path = false) (hmeta : env.metadataOk path = true)
    (hok : env.pipelineOk path = true) :
    (parseSong env path false st).saves
        + (parseSong env path false
            { st with parseQueue := path :: st.parseQueue }).saves = 1
    ∧ (parseSong env path false
          { st with parseQueue := path :: st.parseQueue }).outcome
        = ParseOutcome.skipped "isSongInParseQueue"
    ∧ (parseSong env path false
          { st with parseQueue := path :: st.parseQueue }).logs
        = ["notEligible:isSongInParseQueue"]
    ∧ (parseSong env path false st).saves = 1 := by
  have hmem : path ∈ (path :: st.parseQueue) := by simp
  refine ⟨?_, ?_, ?_, ?_⟩ <;>
    simp [parseSong, hq, hmem, hnew, hmeta, hok]

/-- C5 witness: the concurrent scenario evaluated on a concrete fresh
path. -/
theorem C5_concurrent_parse_single_save_witness :
    (parseSong (ParseEnv.mk (fun _ => false) (fun _ => true) (fun _ => true))
        "/new.mp3" false (ParseState.mk [] [])).saves
      + (parseSong (ParseEnv.mk (fun _ => false) (fun _ => true) (fun _ => true))
          "/new.mp3" false
          { ParseState.mk [] [] with parseQueue := "/new.mp3" :: (ParseState.mk [] []).parseQueue }).saves
      = 1 :=
  (C5_concurrent_parse_single_save
    (ParseEnv.mk (fun _ => false) (fun _ => true) (fun _ => true))
    "/new.mp3" (ParseState.mk [] []) (by simp) rfl rfl rfl).1

/--
C6: for both admission queues, the entry added when an operation is
admitted is removed when the operation ends — on success, skip, thrown
error, or exhausted retries (the oracles range over all outcomes) — so
the final queues equal the initial ones, the path is not left stale, and
a subsequent `tryEnter` on the same path is admitted.
-/
theorem C6_queue_cleanup (penv : ParseEnv) (tenv : TryEnv) (path : String)
    (st : ParseState) (reparse suppress : Bool)
    (h1 : path ∉ st.parseQueue) (h2 : path ∉ st.pathsQueue) :
    (parseSong penv path reparse st).state.parseQueue = st.parseQueue
    ∧ path ∉ (parseSong penv path reparse st).state.parseQueue
    ∧ (tryEnter (parseSong penv path reparse st).state.parseQueue path).1 = true
    ∧ (tryToParseSong tenv path suppress st).state.pathsQueue = st.pathsQueue
    ∧ path ∉ (tryToParseSong tenv path suppress st).state.pathsQueue
    ∧ (tryEnter (tryToParseSong tenv path suppress st).state.pathsQueue path).1 = true := by
  have hl1 := leave_cons st.parseQueue path h1
  have hl2 := leave_cons st.pathsQueue path h2
  have hps : (parseSong penv path reparse st).state.parseQueue = st.parseQueue := by
    rw [parseSong, if_neg h1]
    split_ifs <;> simp [hl1]
  have hts : (tryToParseSong tenv path suppress st).state.pathsQueue = st.pathsQueue := by
    rw [tryToParseSong, if_neg h2]
    cases hb : (retryAttempts tenv.attemptOk 1 5).2 <;> simp [hb, hl2]
  refine ⟨hps, ?_, ?_, hts, ?_, ?_⟩
  · rw [hps]; exact h1
  · rw [hps]; simp [tryEnter, h1]
  · rw [hts]; exact h2
  · rw [hts]; simp [tryEnter, h2]

/-- C6 witness: cleanup evaluated on a concrete path and empty queues
for an erroring pipeline and an exhausted supervisor. -/
theorem C6_queue_cleanup_witness :
    (parseSong (ParseEnv.mk (fun _ => false) (fun _ => true) (fun _ => false))
        "/c.mp3" false (ParseState.mk [] [])).state.parseQueue
      = (ParseState.mk [] []).parseQueue
    ∧ (tryToParseSong (TryEnv.mk fun _ => false) "/c.mp3" false
        (ParseState.mk [] [])).state.pathsQueue
      = (ParseState.mk [] []).pathsQueue :=
  ⟨(C6_queue_cleanup (ParseEnv.mk (fun _ => false) (fun _ => true) (fun _ => false))
      (TryEnv.mk fun _ => false) "/c.mp3" (ParseState.mk [] []) false false
      (by simp) (by simp)).1,
   (C6_queue_cleanup (ParseEnv.mk (fun _ => false) (fun _ => true) (fun _ => false))
      (TryEnv.mk fun _ => false) "/c.mp3" (ParseState.mk [] []) false false
      (by simp) (by simp)).2.2.2.1⟩

end Nora
